import Mathlib

/-!
Verification development for the ArcGIS RGB-to-Z raster tool
(`RGB-to-Z.py`, with `numpy_to_raster_test.py` an earlier variant of the
same script).  The Python functions with algorithmic content are embedded
below as executable Lean definitions over `Int`/`ℚ` (Python ints and
floats; float arithmetic is modelled exactly by rationals), with fallible
operations returning `Except PyErr`.
-/

/-- Exception outcomes of the embedded Python code.  `valueError`,
`indexError` and `zeroDivisionError` are Python built-in exceptions that
the script can raise; `fileFormat` is the script's own `FileFormat`
exception class (`RGB-to-Z.py` lines 29-31), defined and handled by the
script but never raised by it.  `rangeError` is vocabulary taken from the
specification only (its `RangeError` error kind); no such exception class
exists anywhere in the source, and no embedded definition ever produces
it — it is present solely so that claims mentioning `RangeError` can be
stated. -/
inductive PyErr where
  | valueError
  | indexError
  | zeroDivisionError
  | fileFormat
  | rangeError
deriving DecidableEq, Repr

deriving instance DecidableEq for Except

/-- An RGB triple (Python tuple of three ints). -/
abbrev Rgb := Int × Int × Int

/-- Python 2 `round`: round half away from zero.  (Python 2's `round`
returns a float; its value is always integral, so we return `Int`.) -/
def pyRound (q : ℚ) : Int := if 0 ≤ q then ⌊q + 1 / 2⌋ else -⌊-q + 1 / 2⌋

/-- Python `max` over a list of ints (`max` of a nonempty list; the `[]`
case is never reached by the embedded code). -/
def pyListMax : List Int → Int
  | [] => 0
  | x :: xs => xs.foldl max x

/-- The `RgbRange` class (`RGB-to-Z.py` lines 34-57): a colour range
between two breakpoints.  The derived attributes computed in `__init__`
(`_z_range`, `red`/`green`/`blue`, `rgb_range`) are embedded as the
functions below. -/
structure RgbRange where
  rgb_min : Rgb
  rgb_max : Rgb
  z_min : Int
  z_max : Int
deriving DecidableEq, Repr

namespace RgbRange

/-- `self._z_range = abs(z_max - z_min)` (line 49). -/
def z_range (r : RgbRange) : Int := |r.z_max - r.z_min|

/-- `self.red = sorted((rgb_max[0], rgb_min[0]))` (line 50): the sorted
pair for the red channel. -/
def red (r : RgbRange) : Int × Int :=
  (min r.rgb_max.1 r.rgb_min.1, max r.rgb_max.1 r.rgb_min.1)

/-- Sorted pair for the green channel (line 50). -/
def green (r : RgbRange) : Int × Int :=
  (min r.rgb_max.2.1 r.rgb_min.2.1, max r.rgb_max.2.1 r.rgb_min.2.1)

/-- Sorted pair for the blue channel (line 50). -/
def blue (r : RgbRange) : Int × Int :=
  (min r.rgb_max.2.2 r.rgb_min.2.2, max r.rgb_max.2.2 r.rgb_min.2.2)

/-- `self.rgb_range = tuple(abs(x - y) for x, y in zip(rgb_max, rgb_min))`
(line 51): per-channel spans. -/
def rgb_range (r : RgbRange) : List Int :=
  [|r.rgb_max.1 - r.rgb_min.1|, |r.rgb_max.2.1 - r.rgb_min.2.1|,
   |r.rgb_max.2.2 - r.rgb_min.2.2|]

/-- `RgbRange.in_range` (lines 59-67): all three channels must lie between
the sorted per-channel bounds simultaneously. -/
def in_range (r : RgbRange) (rgb : Rgb) : Bool :=
  decide (r.red.1 ≤ rgb.1 ∧ rgb.1 ≤ r.red.2 ∧
          r.green.1 ≤ rgb.2.1 ∧ rgb.2.1 ≤ r.green.2 ∧
          r.blue.1 ≤ rgb.2.2 ∧ rgb.2.2 ≤ r.blue.2)

/-- `self._spectral_position` (lines 77-78): distance of each channel from
`rgb_min`. -/
def spectral_position (r : RgbRange) (rgb : Rgb) : List Int :=
  [|r.rgb_min.1 - rgb.1|, |r.rgb_min.2.1 - rgb.2.1|, |r.rgb_min.2.2 - rgb.2.2|]

/-- `self._largest_range = max(self._spectral_position)` (line 80). -/
def largest_range (r : RgbRange) (rgb : Rgb) : Int :=
  pyListMax (r.spectral_position rgb)

/-- `self._band = self._spectral_position.index(self._largest_range)`
(line 81): index of the first occurrence of the maximum. -/
def band (r : RgbRange) (rgb : Rgb) : Nat :=
  (r.spectral_position rgb).indexOf (r.largest_range rgb)

/-- `RgbRange.rgb_to_z` (lines 69-87).  A zero `rgb_range[band]` in the
non-degenerate branch makes `float(...) / float(0)` raise
`ZeroDivisionError`, embedded as `.error .zeroDivisionError`. -/
def rgb_to_z (r : RgbRange) (rgb : Rgb) : Except PyErr Int :=
  if r.largest_range rgb ≠ 0 then
    if r.rgb_range.getD (r.band rgb) 0 = 0 then .error .zeroDivisionError
    else
      .ok (pyRound ((r.largest_range rgb : ℚ) *
        ((r.z_range : ℚ) / (r.rgb_range.getD (r.band rgb) 0 : ℚ)) +
        (r.z_min : ℚ)))
  else .ok r.z_min

end RgbRange

/-- `return_z_value` (`RGB-to-Z.py` lines 113-127): scan the ranges in
list order, return `rgb_to_z` of the first range containing the pixel,
else the caller-supplied NoData value. -/
def return_z_value (pixel : Rgb) (rgb_ranges : List RgbRange) (null_value : Int) :
    Except PyErr Int :=
  match rgb_ranges with
  | [] => .ok null_value
  | r :: rest =>
      if r.in_range pixel then r.rgb_to_z pixel
      else return_z_value pixel rest null_value

/-- Characters Python's `str.split()` treats as whitespace (the ones that
can occur in a text line). -/
def isPyWs (c : Char) : Bool := c = ' ' ∨ c = '\t' ∨ c = '\n' ∨ c = '\r'

/-- Worker for `splitWs`. -/
def splitWsAux : List Char → List Char → List String
  | [], acc => if acc.isEmpty then [] else [String.mk acc.reverse]
  | c :: cs, acc =>
    if isPyWs c then
      if acc.isEmpty then splitWsAux cs []
      else String.mk acc.reverse :: splitWsAux cs []
    else splitWsAux cs (c :: acc)

/-- Python `line.strip().split()`: the maximal runs of non-whitespace
characters, in order. -/
def splitWs (s : String) : List String := splitWsAux s.data []

/-- Decimal digit test for `pyInt`. -/
def isPyDigit (c : Char) : Bool := decide ('0' ≤ c ∧ c ≤ '9')

/-- Numeric value of a digit string. -/
def digitsVal (l : List Char) : Nat :=
  l.foldl (fun acc c => 10 * acc + (c.toNat - '0'.toNat)) 0

/-- Python `int(token)` on a whitespace-free token: an optional sign
followed by at least one digit parses; anything else raises `ValueError`. -/
def pyInt (s : String) : Except PyErr Int :=
  match s.data with
  | '-' :: rest =>
      if !rest.isEmpty && rest.all isPyDigit then .ok (-(digitsVal rest : Int))
      else .error .valueError
  | '+' :: rest =>
      if !rest.isEmpty && rest.all isPyDigit then .ok (digitsVal rest : Int)
      else .error .valueError
  | l =>
      if !l.isEmpty && l.all isPyDigit then .ok (digitsVal l : Int)
      else .error .valueError

/-- Python sequence indexing `l[i]` for a non-negative index: raises
`IndexError` when out of range. -/
def pyIndex {α : Type} (l : List α) (i : Nat) : Except PyErr α :=
  match l.get? i with
  | some v => .ok v
  | none => .error .indexError

/-- Python `tuple(line[:3])`: the first three elements.  Every line that
reaches range construction in `buildRanges` has already served a `line[3]`
lookup, hence has length at least 4, so the fallback is unreachable
there. -/
def firstThree (l : List Int) : Rgb :=
  match l with
  | a :: b :: c :: _ => (a, b, c)
  | _ => (0, 0, 0)

/-- The loop of `create_rgb_range` (lines 103-108): for each consecutive
pair of parsed lines, read `z` values at index 3 (raising `IndexError` on
short lines, in the same order as the Python loop) and build an
`RgbRange` from the first three elements of each line. -/
def buildRanges : List (List Int) → Except PyErr (List RgbRange)
  | a :: b :: rest =>
      match pyIndex a 3 with
      | .error e => .error e
      | .ok z_min =>
          match pyIndex b 3 with
          | .error e => .error e
          | .ok z_max =>
              match buildRanges (b :: rest) with
              | .error e => .error e
              | .ok others => .ok (⟨firstThree a, firstThree b, z_min, z_max⟩ :: others)
  | _ => .ok []

/-- The inner comprehension `[int(n) for n in sub]`: convert each token,
left to right, propagating the first `ValueError`. -/
def mapPyInt : List String → Except PyErr (List Int)
  | [] => .ok []
  | s :: rest =>
      match pyInt s with
      | .error e => .error e
      | .ok v =>
          match mapPyInt rest with
          | .error e => .error e
          | .ok vs => .ok (v :: vs)

/-- The outer comprehension `[[int(n) for n in sub] for sub in content]`
(line 102): convert every line, left to right. -/
def convertLines : List (List String) → Except PyErr (List (List Int))
  | [] => .ok []
  | sub :: rest =>
      match mapPyInt sub with
      | .error e => .error e
      | .ok nums =>
          match convertLines rest with
          | .error e => .error e
          | .ok tail => .ok (nums :: tail)

/-- `create_rgb_range` (`RGB-to-Z.py` lines 90-110), taking the text
file's lines: split each line on whitespace, drop empty lines
(`filter(None, content)`), convert every token with `int` (raising
`ValueError` on non-numeric tokens, left to right), then build one range
per consecutive pair of lines. -/
def create_rgb_range (fileLines : List String) : Except PyErr (List RgbRange) :=
  match convertLines ((fileLines.map splitWs).filter fun l => !l.isEmpty) with
  | .error e => .error e
  | .ok content => buildRanges content

/-- Worker for `np_cumsum`, carrying the running sum. -/
def npCumsumFrom (acc : Int) : List Int → List Int
  | [] => []
  | x :: xs => (acc + x) :: npCumsumFrom (acc + x) xs

/-- `np.cumsum`: partial sums of a list. -/
def np_cumsum (l : List Int) : List Int := npCumsumFrom 0 l

/-- Bin counts of `np.histogram(data, edges)` for an explicit edge array:
with `n` edges there are `n - 1` bins, each half-open except the last,
which is closed. -/
def histCounts (data : List Int) : List Int → List Int
  | e1 :: e2 :: rest =>
      (if rest.isEmpty then ((data.countP fun x => decide (e1 ≤ x ∧ x ≤ e2)) : Int)
       else ((data.countP fun x => decide (e1 ≤ x ∧ x < e2)) : Int)) ::
        histCounts data (e2 :: rest)
  | _ => []

/-- `np.histogram(data, edges)` returns the pair (counts, edges); the pair
is embedded as a two-element list so that Python tuple indexing
(`histogram[0]`, `histogram[1]`, and the out-of-range `histogram[2]`) can
be modelled by `pyIndex`. -/
def np_histogram (data : List Int) (edges : List Int) : List (List Int) :=
  [histCounts data edges, edges]

/-- `bins = np.arange(0, 256)` (line 204): the 256 integers 0..255, used
as histogram bin edges. -/
def bins : List Int := (List.range 256).map Int.ofNat

/-- `red_histogram = np.histogram(rgb_raster_array[0], bins)` (line 208). -/
def red_histogram (redChannel : List Int) : List (List Int) :=
  np_histogram redChannel bins

/-- `green_histogram = np.histogram(rgb_raster_array[1], bins)` (line 209).
Computed by the script but never used afterwards. -/
def green_histogram (greenChannel : List Int) : List (List Int) :=
  np_histogram greenChannel bins

/-- `blue_histogram = np.histogram(rgb_raster_array[2], bins)` (line 210).
Computed by the script but never used afterwards. -/
def blue_histogram (blueChannel : List Int) : List (List Int) :=
  np_histogram blueChannel bins

/-- `red_cum_sum = np.cumsum(red_histogram[0])` (line 213). -/
def red_cum_sum (redChannel : List Int) : Except PyErr (List Int) := do
  pure (np_cumsum (← pyIndex (red_histogram redChannel) 0))

/-- `green_cum_sum = np.cumsum(red_histogram[1])` (line 214): as written
in the source, this reads component 1 of the *red* histogram — the bin
edge array — not the green histogram's counts. -/
def green_cum_sum (redChannel : List Int) : Except PyErr (List Int) := do
  pure (np_cumsum (← pyIndex (red_histogram redChannel) 1))

/-- `blue_cum_sum = np.cumsum(red_histogram[2])` (line 215): as written in
the source, this indexes the red histogram's two-element result tuple at
2. -/
def blue_cum_sum (redChannel : List Int) : Except PyErr (List Int) := do
  pure (np_cumsum (← pyIndex (red_histogram redChannel) 2))

/-- Per-channel intensity counts as the specification describes them:
256 bins, `counts[v]` = number of pixels equal to `v`. -/
def level_counts (data : List Int) : List Int :=
  (List.range 256).map fun v => ((data.countP fun x => decide (x = (v : Int))) : Int)

/-- Per-channel cumulative sum as the specification describes it: partial
sums of that same channel's own `level_counts`. -/
def level_cum_sum (data : List Int) : List Int := np_cumsum (level_counts data)

/-- Minimum of a nonempty list of rationals (the `[]` case is never
reached by the embedded code). -/
def list_min : List ℚ → ℚ
  | [] => 0
  | [x] => x
  | x :: y :: rest => min x (list_min (y :: rest))

/-- `np.argmin`: index of the first occurrence of the minimum. -/
def np_argmin : List ℚ → Nat
  | [] => 0
  | [_] => 0
  | x :: y :: rest =>
      if list_min (y :: rest) < x then np_argmin (y :: rest) + 1 else 0

/-- `calculate_cdf` (`RGB-to-Z.py` lines 130-152).  The float arithmetic
is modelled over `ℚ`; `float(levels) - 2 = 0` makes the division raise
`ZeroDivisionError`, and `argmin` of an empty array raises a
`ValueError`. -/
def calculate_cdf (histogram_value : ℚ) (cum_sum : List ℚ) (cdf_min : ℚ)
    (width height : Int) (levels : ℚ) : Except PyErr Nat :=
  if levels - 2 = 0 then .error .zeroDivisionError
  else if cum_sum.isEmpty then .error .valueError
  else
    .ok (np_argmin (cum_sum.map fun a =>
      |a - (histogram_value / (levels - 2) * ((width * height - 1 : Int) : ℚ) + cdf_min)|))

/-- Evaluation formula exactly as claim C2 words it (the specification
side of the refinement, to be compared with `RgbRange.rgb_to_z`):
`spectral_position[c] = |rgb[c] - rgb_min[c]|`; `band` is the first
channel in R,G,B order attaining the maximum; if
`spectral_position[band] = 0` the result is exactly `z_min`; otherwise it
is `round(spectral_position[band] * (z_span / channel_span[band]) + z_min)`
with `z_span = |z_max - z_min|` and `channel_span[c] = |rgb_max[c] - rgb_min[c]|`. -/
def rgb_to_z_spec (r : RgbRange) (rgb : Rgb) : Int :=
  let s0 := |rgb.1 - r.rgb_min.1|
  let s1 := |rgb.2.1 - r.rgb_min.2.1|
  let s2 := |rgb.2.2 - r.rgb_min.2.2|
  let b : Nat := if s1 ≤ s0 ∧ s2 ≤ s0 then 0 else if s2 ≤ s1 then 1 else 2
  let sb := if b = 0 then s0 else if b = 1 then s1 else s2
  let span := if b = 0 then |r.rgb_max.1 - r.rgb_min.1|
    else if b = 1 then |r.rgb_max.2.1 - r.rgb_min.2.1|
    else |r.rgb_max.2.2 - r.rgb_min.2.2|
  if sb = 0 then r.z_min
  else pyRound ((sb : ℚ) * (((|r.z_max - r.z_min| : Int) : ℚ) / (span : ℚ)) + (r.z_min : ℚ))

/-! ## Lemmas about `list_min` and `np_argmin` -/

theorem list_min_le : ∀ (l : List ℚ) (j : Nat), j < l.length → list_min l ≤ l.getD j 0
  | [], j, h => by simp at h
  | [x], 0, _ => by simp [list_min]
  | [x], j + 1, h => by simp at h
  | x :: y :: rest, 0, _ => by
      simp only [list_min, List.getD_cons_zero]
      exact min_le_left _ _
  | x :: y :: rest, j + 1, h => by
      rw [List.getD_cons_succ]
      exact le_trans (min_le_right _ _)
        (list_min_le (y :: rest) j (by simpa using h))

theorem np_argmin_lt_length : ∀ (l : List ℚ), l ≠ [] → np_argmin l < l.length
  | [x], _ => by simp [np_argmin]
  | x :: y :: rest, _ => by
      rw [np_argmin]
      split
      · have := np_argmin_lt_length (y :: rest) (by simp)
        simpa using Nat.succ_lt_succ this
      · simp

theorem np_argmin_getD : ∀ (l : List ℚ), l ≠ [] → l.getD (np_argmin l) 0 = list_min l
  | [x], _ => by simp [np_argmin, list_min]
  | x :: y :: rest, _ => by
      rw [np_argmin, list_min]
      split
      · rename_i hlt
        rw [List.getD_cons_succ, np_argmin_getD (y :: rest) (by simp),
          min_eq_right (le_of_lt hlt)]
      · rename_i hge
        rw [List.getD_cons_zero, min_eq_left (le_of_not_lt hge)]

theorem np_argmin_min (l : List ℚ) (j : Nat) (h : j < l.length) :
    l.getD (np_argmin l) 0 ≤ l.getD j 0 := by
  have hne : l ≠ [] := by rintro rfl; simp at h
  rw [np_argmin_getD l hne]
  exact list_min_le l j h

theorem np_argmin_first : ∀ (l : List ℚ) (j : Nat), j < np_argmin l →
    l.getD (np_argmin l) 0 < l.getD j 0
  | [], j, h => by simp [np_argmin] at h
  | [x], j, h => by simp [np_argmin] at h
  | x :: y :: rest, j, h => by
      rw [np_argmin] at h ⊢
      by_cases hlt : list_min (y :: rest) < x
      · rw [if_pos hlt] at h ⊢
        cases j with
        | zero =>
            rw [List.getD_cons_succ, List.getD_cons_zero,
              np_argmin_getD (y :: rest) (by simp)]
            exact hlt
        | succ j =>
            rw [List.getD_cons_succ, List.getD_cons_succ]
            exact np_argmin_first (y :: rest) j (Nat.lt_of_succ_lt_succ h)
      · rw [if_neg hlt] at h
        omega

/-- Quadrangle inequality for absolute values: for `x ≤ y` the function
`t ↦ |y - t| - |x - t|` is antitone. -/
theorem abs_sub_quadrangle (x y t1 t2 : ℚ) (hxy : x ≤ y) (ht : t1 ≤ t2) :
    |y - t2| - |x - t2| ≤ |y - t1| - |x - t1| := by
  rcases abs_cases (y - t2) with ⟨h5, h6⟩ | ⟨h5, h6⟩ <;>
    rcases abs_cases (x - t2) with ⟨h7, h8⟩ | ⟨h7, h8⟩ <;>
    rcases abs_cases (y - t1) with ⟨h9, h10⟩ | ⟨h9, h10⟩ <;>
    rcases abs_cases (x - t1) with ⟨h11, h12⟩ | ⟨h11, h12⟩ <;>
    rw [h5, h7, h9, h11] <;> linarith

theorem getD_map_abs (cs : List ℚ) (t : ℚ) (j : Nat) (h : j < cs.length) :
    (cs.map fun a => |a - t|).getD j 0 = |cs.getD j 0 - t| := by
  rw [List.getD_eq_getElem _ _ (by simpa using h), List.getD_eq_getElem _ _ h]
  simp

/-- For a non-decreasing array, the first index nearest to a target is
monotone in the target. -/
theorem np_argmin_abs_mono (cs : List ℚ) (hs : List.Sorted (· ≤ ·) cs)
    (t1 t2 : ℚ) (ht : t1 ≤ t2) :
    np_argmin (cs.map fun a => |a - t1|) ≤ np_argmin (cs.map fun a => |a - t2|) := by
  by_contra hcon
  push_neg at hcon
  set i1 := np_argmin (cs.map fun a => |a - t1|) with hi1
  set i2 := np_argmin (cs.map fun a => |a - t2|) with hi2
  have hne : cs ≠ [] := by rintro rfl; simp [np_argmin, hi1, hi2] at hcon
  have hlen1 : i1 < cs.length := by
    have := np_argmin_lt_length (cs.map fun a => |a - t1|) (by simpa using hne)
    simpa using this
  have hlen2 : i2 < cs.length := lt_trans hcon hlen1
  have k1 : |cs.getD i1 0 - t1| < |cs.getD i2 0 - t1| := by
    have := np_argmin_first (cs.map fun a => |a - t1|) i2 hcon
    rwa [getD_map_abs _ _ _ hlen1, getD_map_abs _ _ _ hlen2] at this
  have k2 : |cs.getD i2 0 - t2| ≤ |cs.getD i1 0 - t2| := by
    have := np_argmin_min (cs.map fun a => |a - t2|) i1 (by simpa using hlen1)
    rwa [getD_map_abs _ _ _ hlen2, getD_map_abs _ _ _ hlen1] at this
  have hxy : cs.getD i2 0 ≤ cs.getD i1 0 := by
    have := List.Sorted.rel_get_of_lt hs (a := ⟨i2, hlen2⟩) (b := ⟨i1, hlen1⟩)
      (by simpa using hcon)
    rw [List.getD_eq_getElem _ _ hlen2, List.getD_eq_getElem _ _ hlen1]
    simpa using this
  have quad := abs_sub_quadrangle (cs.getD i2 0) (cs.getD i1 0) t1 t2 hxy ht
  linarith

/-- Claim C6: for a non-decreasing cumulative-sum array, `cdf_min`,
`width`, `height` and `levels > 2`, `calculate_cdf` returns the index `v`
minimizing `|cum_sum[v] - cdf_target|` where
`cdf_target = (histogram_value / (levels - 2)) * (width * height - 1) + cdf_min`,
and ties resolve to the lowest such index. -/
theorem calculate_cdf_first_argmin (e : ℚ) (cs : List ℚ) (m : ℚ) (w h : Int)
    (L : ℚ) (_hsorted : List.Sorted (· ≤ ·) cs) (hL : 2 < L) (hne : cs ≠ []) :
    ∃ i, calculate_cdf e cs m w h L = .ok i ∧ i < cs.length ∧
      (∀ j, j < cs.length →
        |cs.getD i 0 - (e / (L - 2) * ((w * h - 1 : Int) : ℚ) + m)| ≤
        |cs.getD j 0 - (e / (L - 2) * ((w * h - 1 : Int) : ℚ) + m)|) ∧
      (∀ j, j < i →
        |cs.getD i 0 - (e / (L - 2) * ((w * h - 1 : Int) : ℚ) + m)| <
        |cs.getD j 0 - (e / (L - 2) * ((w * h - 1 : Int) : ℚ) + m)|) := by
  have hL2 : L - 2 ≠ 0 := by
    intro h0
    have : L = 2 := by linarith
    linarith
  have hEmpty : ¬(cs.isEmpty = true) := by simpa using hne
  refine ⟨np_argmin (cs.map fun a =>
      |a - (e / (L - 2) * ((w * h - 1 : Int) : ℚ) + m)|), ?_, ?_, ?_, ?_⟩
  · rw [calculate_cdf, if_neg hL2, if_neg hEmpty]
  · have := np_argmin_lt_length (cs.map fun a =>
      |a - (e / (L - 2) * ((w * h - 1 : Int) : ℚ) + m)|) (by simpa using hne)
    simpa using this
  · intro j hj
    have hlt : np_argmin (cs.map fun a =>
        |a - (e / (L - 2) * ((w * h - 1 : Int) : ℚ) + m)|) < cs.length := by
      have := np_argmin_lt_length (cs.map fun a =>
        |a - (e / (L - 2) * ((w * h - 1 : Int) : ℚ) + m)|) (by simpa using hne)
      simpa using this
    have := np_argmin_min (cs.map fun a =>
      |a - (e / (L - 2) * ((w * h - 1 : Int) : ℚ) + m)|) j (by simpa using hj)
    rwa [getD_map_abs _ _ _ hlt, getD_map_abs _ _ _ hj] at this
  · intro j hj
    have hlt : np_argmin (cs.map fun a =>
        |a - (e / (L - 2) * ((w * h - 1 : Int) : ℚ) + m)|) < cs.length := by
      have := np_argmin_lt_length (cs.map fun a =>
        |a - (e / (L - 2) * ((w * h - 1 : Int) : ℚ) + m)|) (by simpa using hne)
      simpa using this
    have := np_argmin_first (cs.map fun a =>
      |a - (e / (L - 2) * ((w * h - 1 : Int) : ℚ) + m)|) j hj
    rwa [getD_map_abs _ _ _ hlt, getD_map_abs _ _ _ (lt_trans hj hlt)] at this

theorem calculate_cdf_first_argmin_witness :
    ∃ i, calculate_cdf 0 [(2:ℚ), 2, 2, 4] 2 2 2 256 = .ok i ∧
      i < [(2:ℚ), 2, 2, 4].length ∧
      (∀ j, j < [(2:ℚ), 2, 2, 4].length →
        |[(2:ℚ), 2, 2, 4].getD i 0 - (0 / (256 - 2) * ((2 * 2 - 1 : Int) : ℚ) + 2)| ≤
        |[(2:ℚ), 2, 2, 4].getD j 0 - (0 / (256 - 2) * ((2 * 2 - 1 : Int) : ℚ) + 2)|) ∧
      (∀ j, j < i →
        |[(2:ℚ), 2, 2, 4].getD i 0 - (0 / (256 - 2) * ((2 * 2 - 1 : Int) : ℚ) + 2)| <
        |[(2:ℚ), 2, 2, 4].getD j 0 - (0 / (256 - 2) * ((2 * 2 - 1 : Int) : ℚ) + 2)|) :=
  calculate_cdf_first_argmin 0 [(2:ℚ), 2, 2, 4] 2 2 2 256 (by decide)
    (by norm_num) (by decide)

/-- Claim C7: for a fixed non-decreasing cumulative-sum array, `cdf_min`,
`width`, `height` with `width * height ≥ 1` and `levels > 2`,
`calculate_cdf` is monotone non-decreasing in the equalized value. -/
theorem calculate_cdf_monotone (cs : List ℚ) (m : ℚ) (w h : Int) (L : ℚ)
    (hsorted : List.Sorted (· ≤ ·) cs) (hne : cs ≠ []) (hL : 2 < L)
    (hwh : 1 ≤ w * h) (e1 e2 : ℚ) (he : e1 ≤ e2) (i1 i2 : Nat)
    (h1 : calculate_cdf e1 cs m w h L = .ok i1)
    (h2 : calculate_cdf e2 cs m w h L = .ok i2) : i1 ≤ i2 := by
  have hL2 : L - 2 ≠ 0 := by
    intro h0
    have : L = 2 := by linarith
    linarith
  have hEmpty : ¬(cs.isEmpty = true) := by simpa using hne
  rw [calculate_cdf, if_neg hL2, if_neg hEmpty] at h1 h2
  have e1eq := Except.ok.inj h1
  have e2eq := Except.ok.inj h2
  subst e1eq
  subst e2eq
  have hLpos : (0:ℚ) < L - 2 := by linarith
  have hP : (0:ℚ) ≤ ((w * h - 1 : Int) : ℚ) := by
    exact_mod_cast (by omega : (0:Int) ≤ w * h - 1)
  have hT : e1 / (L - 2) * ((w * h - 1 : Int) : ℚ) + m ≤
      e2 / (L - 2) * ((w * h - 1 : Int) : ℚ) + m := by gcongr
  exact np_argmin_abs_mono cs hsorted _ _ hT

theorem calculate_cdf_monotone_witness :
    calculate_cdf 0 [(2:ℚ), 2, 2, 4] 2 2 2 256 = .ok 0 ∧
    calculate_cdf 254 [(2:ℚ), 2, 2, 4] 2 2 2 256 = .ok 3 ∧ (0 : Nat) ≤ 3 :=
  ⟨by norm_num [calculate_cdf, np_argmin, list_min],
   by norm_num [calculate_cdf, np_argmin, list_min],
   calculate_cdf_monotone [(2:ℚ), 2, 2, 4] 2 2 2 256 (by decide) (by decide)
     (by norm_num) (by norm_num) 0 254 (by norm_num) 0 3
     (by norm_num [calculate_cdf, np_argmin, list_min])
     (by norm_num [calculate_cdf, np_argmin, list_min])⟩

/-! ## Lemmas about band selection, containment and rounding -/

theorem pyListMax_three (a b c : Int) : pyListMax [a, b, c] = max (max a b) c := rfl

theorem indexOf_max_three (a b c : Int) :
    [a, b, c].indexOf (pyListMax [a, b, c]) =
      if b ≤ a ∧ c ≤ a then 0 else if c ≤ b then 1 else 2 := by
  rw [pyListMax_three]
  simp only [List.indexOf, List.findIdx_cons, beq_iff_eq, cond_eq_if]
  split_ifs <;> omega

theorem largest_range_def (r : RgbRange) (p : Rgb) :
    r.largest_range p =
      max (max |r.rgb_min.1 - p.1| |r.rgb_min.2.1 - p.2.1|) |r.rgb_min.2.2 - p.2.2| := rfl

theorem band_def (r : RgbRange) (p : Rgb) :
    r.band p =
      if |r.rgb_min.2.1 - p.2.1| ≤ |r.rgb_min.1 - p.1| ∧
          |r.rgb_min.2.2 - p.2.2| ≤ |r.rgb_min.1 - p.1| then 0
      else if |r.rgb_min.2.2 - p.2.2| ≤ |r.rgb_min.2.1 - p.2.1| then 1 else 2 :=
  indexOf_max_three _ _ _

theorem band_lt_three (r : RgbRange) (p : Rgb) : r.band p < 3 := by
  rw [band_def]
  split_ifs <;> omega

theorem spectral_at_band (r : RgbRange) (p : Rgb) :
    (r.spectral_position p).getD (r.band p) 0 = r.largest_range p := by
  rw [band_def, largest_range_def]
  split_ifs with h1 h2 <;> simp [RgbRange.spectral_position] <;> omega

theorem largest_nonneg (r : RgbRange) (p : Rgb) : 0 ≤ r.largest_range p := by
  rw [largest_range_def]
  exact le_trans (abs_nonneg _) (le_max_right _ _)

theorem in_range_iff (r : RgbRange) (p : Rgb) :
    r.in_range p = true ↔
      (min r.rgb_max.1 r.rgb_min.1 ≤ p.1 ∧ p.1 ≤ max r.rgb_max.1 r.rgb_min.1 ∧
       min r.rgb_max.2.1 r.rgb_min.2.1 ≤ p.2.1 ∧
       p.2.1 ≤ max r.rgb_max.2.1 r.rgb_min.2.1 ∧
       min r.rgb_max.2.2 r.rgb_min.2.2 ≤ p.2.2 ∧
       p.2.2 ≤ max r.rgb_max.2.2 r.rgb_min.2.2) := by
  simp [RgbRange.in_range, RgbRange.red, RgbRange.green, RgbRange.blue]

theorem abs_between (mn mx v : Int) (h1 : min mx mn ≤ v) (h2 : v ≤ max mx mn) :
    |mn - v| ≤ |mx - mn| := by
  rcases le_total mn mx with h | h
  · rw [abs_of_nonpos (by omega), abs_of_nonneg (by omega)]
    omega
  · rw [abs_of_nonneg (by omega), abs_of_nonpos (by omega)]
    omega

theorem matched_le_span (r : RgbRange) (p : Rgb) (hin : r.in_range p = true) :
    ∀ c, c < 3 → (r.spectral_position p).getD c 0 ≤ r.rgb_range.getD c 0 := by
  rw [in_range_iff] at hin
  obtain ⟨h1, h2, h3, h4, h5, h6⟩ := hin
  intro c hc
  interval_cases c
  · simpa [RgbRange.spectral_position, RgbRange.rgb_range] using abs_between _ _ _ h1 h2
  · simpa [RgbRange.spectral_position, RgbRange.rgb_range] using abs_between _ _ _ h3 h4
  · simpa [RgbRange.spectral_position, RgbRange.rgb_range] using abs_between _ _ _ h5 h6

theorem matched_span_zero (r : RgbRange) (p : Rgb) (hin : r.in_range p = true)
    (hz : r.rgb_range.getD (r.band p) 0 = 0) : r.largest_range p = 0 := by
  have hle := matched_le_span r p hin (r.band p) (band_lt_three r p)
  rw [spectral_at_band, hz] at hle
  have := largest_nonneg r p
  omega

theorem le_pyRound (a : Int) (q : ℚ) (h : (a : ℚ) ≤ q) : a ≤ pyRound q := by
  rw [pyRound]
  split_ifs with h0
  · exact Int.le_floor.mpr (by linarith)
  · have hf : ⌊-q + 1 / 2⌋ < -a + 1 := Int.floor_lt.mpr (by push_cast; linarith)
    omega

theorem pyRound_le (b : Int) (q : ℚ) (h : q ≤ (b : ℚ)) : pyRound q ≤ b := by
  rw [pyRound]
  split_ifs with h0
  · have hf : ⌊q + 1 / 2⌋ < b + 1 := Int.floor_lt.mpr (by push_cast; linarith)
    omega
  · have := Int.le_floor.mpr (by push_cast [neg_le]; linarith : ((-b : Int) : ℚ) ≤ -q + 1 / 2)
    omega

/-- On a pixel accepted by `in_range`, `rgb_to_z` never reaches the
division (a zero span at the selected band forces a zero spectral
position there) and its result is the degenerate-or-rounded value. -/
theorem rgb_to_z_matched_eq (r : RgbRange) (p : Rgb) (hin : r.in_range p = true) :
    r.rgb_to_z p = .ok
      (if r.largest_range p = 0 then r.z_min
       else pyRound ((r.largest_range p : ℚ) *
         ((r.z_range : ℚ) / (r.rgb_range.getD (r.band p) 0 : ℚ)) + (r.z_min : ℚ))) := by
  rw [RgbRange.rgb_to_z]
  by_cases hl : r.largest_range p = 0
  · rw [if_neg (by simpa using hl), if_pos hl]
  · have hspan : ¬(r.rgb_range.getD (r.band p) 0 = 0) :=
      fun h => hl (matched_span_zero r p hin h)
    rw [if_pos hl, if_neg hspan, if_neg hl]

theorem rgb_to_z_spec_eq (r : RgbRange) (p : Rgb) :
    rgb_to_z_spec r p =
      if r.largest_range p = 0 then r.z_min
      else pyRound ((r.largest_range p : ℚ) *
        ((r.z_range : ℚ) / (r.rgb_range.getD (r.band p) 0 : ℚ)) + (r.z_min : ℚ)) := by
  simp only [rgb_to_z_spec, abs_sub_comm p.1 r.rgb_min.1,
    abs_sub_comm p.2.1 r.rgb_min.2.1, abs_sub_comm p.2.2 r.rgb_min.2.2]
  by_cases hb0 : |r.rgb_min.2.1 - p.2.1| ≤ |r.rgb_min.1 - p.1| ∧
      |r.rgb_min.2.2 - p.2.2| ≤ |r.rgb_min.1 - p.1|
  · have hband : r.band p = 0 := by rw [band_def, if_pos hb0]
    have hlarg : r.largest_range p = |r.rgb_min.1 - p.1| := by
      rw [largest_range_def]
      omega
    rw [if_pos hb0, hband, hlarg]
    norm_num [RgbRange.rgb_range, RgbRange.z_range]
  · by_cases hb1 : |r.rgb_min.2.2 - p.2.2| ≤ |r.rgb_min.2.1 - p.2.1|
    · have hband : r.band p = 1 := by rw [band_def, if_neg hb0, if_pos hb1]
      have hlarg : r.largest_range p = |r.rgb_min.2.1 - p.2.1| := by
        rw [largest_range_def]
        omega
      rw [if_neg hb0, if_pos hb1, hband, hlarg]
      norm_num [RgbRange.rgb_range, RgbRange.z_range]
    · have hband : r.band p = 2 := by rw [band_def, if_neg hb0, if_neg hb1]
      have hlarg : r.largest_range p = |r.rgb_min.2.2 - p.2.2| := by
        rw [largest_range_def]
        omega
      rw [if_neg hb0, if_neg hb1, hband, hlarg]
      norm_num [RgbRange.rgb_range, RgbRange.z_range]

/-! ## Claims about lookup and evaluation -/

/-- Claim C1: `return_z_value` scans the ranges in list order and returns
the z value computed from the first range whose axis-aligned 3-D box
contains the triple (containment requiring all three channels
simultaneously to lie between the per-channel low and high bounds); if no
range's box contains the triple it returns the caller-supplied null/no-data
sentinel unchanged. -/
theorem return_z_value_first_match (pixel : Rgb) (rgb_ranges : List RgbRange)
    (null_value : Int) :
    (∀ r : RgbRange, r.in_range pixel = true ↔
      (min r.rgb_max.1 r.rgb_min.1 ≤ pixel.1 ∧
       pixel.1 ≤ max r.rgb_max.1 r.rgb_min.1 ∧
       min r.rgb_max.2.1 r.rgb_min.2.1 ≤ pixel.2.1 ∧
       pixel.2.1 ≤ max r.rgb_max.2.1 r.rgb_min.2.1 ∧
       min r.rgb_max.2.2 r.rgb_min.2.2 ≤ pixel.2.2 ∧
       pixel.2.2 ≤ max r.rgb_max.2.2 r.rgb_min.2.2)) ∧
    ((∀ r ∈ rgb_ranges, r.in_range pixel = false) →
      return_z_value pixel rgb_ranges null_value = .ok null_value) ∧
    (∀ i, (hi : i < rgb_ranges.length) →
      (rgb_ranges.get ⟨i, hi⟩).in_range pixel = true →
      (∀ j, (hj : j < rgb_ranges.length) → j < i →
        (rgb_ranges.get ⟨j, hj⟩).in_range pixel = false) →
      return_z_value pixel rgb_ranges null_value =
        (rgb_ranges.get ⟨i, hi⟩).rgb_to_z pixel) := by
  refine ⟨fun r => in_range_iff r pixel, ?_, ?_⟩
  · induction rgb_ranges with
    | nil => intro _; rfl
    | cons r rest ih =>
        intro hnone
        rw [return_z_value]
        rw [hnone r (List.mem_cons_self r rest)]
        simp only [Bool.false_eq_true, if_false]
        exact ih fun r' h' => hnone r' (List.mem_cons_of_mem r h')
  · induction rgb_ranges with
    | nil =>
        intro i hi
        simp at hi
    | cons r rest ih =>
        intro i hi hmatch hbefore
        cases i with
        | zero =>
            rw [return_z_value]
            rw [show (r :: rest).get ⟨0, hi⟩ = r from rfl] at hmatch
            rw [hmatch]
            simp only [if_true]
            rfl
        | succ i =>
            have h0 : r.in_range pixel = false := hbefore 0 (by omega) (by omega)
            rw [return_z_value, h0]
            simp only [Bool.false_eq_true, if_false]
            exact ih i (Nat.lt_of_succ_lt_succ hi) hmatch
              fun j hj hji => hbefore (j + 1) (Nat.succ_lt_succ hj) (Nat.succ_lt_succ hji)

theorem return_z_value_first_match_witness :
    return_z_value (50, 0, 0)
        [⟨(0, 0, 0), (10, 10, 10), 0, 10⟩, ⟨(0, 0, 0), (255, 255, 255), 0, 100⟩]
        (-9999) =
      RgbRange.rgb_to_z ⟨(0, 0, 0), (255, 255, 255), 0, 100⟩ (50, 0, 0) :=
  (return_z_value_first_match (50, 0, 0)
    [⟨(0, 0, 0), (10, 10, 10), 0, 10⟩, ⟨(0, 0, 0), (255, 255, 255), 0, 100⟩]
    (-9999)).2.2 1 (by decide) (by decide)
    (fun j _ hj1 => by
      have hj0 : j = 0 := by omega
      subst hj0
      rfl)

/-- Claim C2: on a matched range, the returned scalar is
`spectral_position[c] = |rgb[c] - rgb_min[c]|`, band the first channel in
R,G,B order attaining the maximum, exactly `z_min` when
`spectral_position[band] = 0`, and otherwise
`round(spectral_position[band] * (z_span / channel_span[band]) + z_min)`;
in particular, for the ramp `[(0,0,0,0), (255,255,255,100)]`, lookup of
`(255,0,0)` gives `100` and lookup of `(0,0,0)` gives `0`. -/
theorem rgb_to_z_formula :
    (∀ (r : RgbRange) (p : Rgb), r.in_range p = true →
      r.rgb_to_z p = .ok (rgb_to_z_spec r p)) ∧
    create_rgb_range ["0 0 0 0", "255 255 255 100"] =
      .ok [⟨(0, 0, 0), (255, 255, 255), 0, 100⟩] ∧
    return_z_value (255, 0, 0) [⟨(0, 0, 0), (255, 255, 255), 0, 100⟩] (-9999) =
      .ok 100 ∧
    return_z_value (0, 0, 0) [⟨(0, 0, 0), (255, 255, 255), 0, 100⟩] (-9999) =
      .ok 0 := by
  refine ⟨?_, by decide, ?_, ?_⟩
  · intro r p hin
    rw [rgb_to_z_spec_eq r p]
    exact rgb_to_z_matched_eq r p hin
  · have h0 : RgbRange.in_range ⟨(0, 0, 0), (255, 255, 255), 0, 100⟩ (255, 0, 0) =
        true := by decide
    have h1 : RgbRange.largest_range ⟨(0, 0, 0), (255, 255, 255), 0, 100⟩
        (255, 0, 0) = 255 := by decide
    have h2 : RgbRange.band ⟨(0, 0, 0), (255, 255, 255), 0, 100⟩ (255, 0, 0) = 0 := by
      decide
    rw [return_z_value, h0, if_pos rfl, RgbRange.rgb_to_z, h1, h2]
    norm_num [RgbRange.rgb_range, RgbRange.z_range, pyRound]
  · have h0 : RgbRange.in_range ⟨(0, 0, 0), (255, 255, 255), 0, 100⟩ (0, 0, 0) =
        true := by decide
    have h1 : RgbRange.largest_range ⟨(0, 0, 0), (255, 255, 255), 0, 100⟩
        (0, 0, 0) = 0 := by decide
    rw [return_z_value, h0, if_pos rfl, RgbRange.rgb_to_z, h1]
    norm_num

theorem rgb_to_z_formula_witness :
    RgbRange.in_range ⟨(0, 0, 0), (255, 255, 255), 0, 100⟩ (10, 0, 0) = true ∧
    RgbRange.rgb_to_z ⟨(0, 0, 0), (255, 255, 255), 0, 100⟩ (10, 0, 0) =
      .ok (rgb_to_z_spec ⟨(0, 0, 0), (255, 255, 255), 0, 100⟩ (10, 0, 0)) :=
  ⟨by decide,
   rgb_to_z_formula.1 ⟨(0, 0, 0), (255, 255, 255), 0, 100⟩ (10, 0, 0) (by decide)⟩

/-- Counterexample to claim C8 as stated: a range with zero channel span
at the dominant band and non-zero spectral position there (necessarily
unmatched — `in_range` rejects every such triple) makes `rgb_to_z` raise
`ZeroDivisionError`, not the specification's `RangeError` (no such error
kind exists in the program). -/
theorem rgb_to_z_zero_span_counterexample :
    RgbRange.rgb_to_z ⟨(0, 0, 0), (0, 0, 0), 0, 10⟩ (5, 0, 0) =
      .error .zeroDivisionError ∧
    RgbRange.rgb_to_z ⟨(0, 0, 0), (0, 0, 0), 0, 10⟩ (5, 0, 0) ≠
      .error .rangeError ∧
    RgbRange.in_range ⟨(0, 0, 0), (0, 0, 0), 0, 10⟩ (5, 0, 0) = false ∧
    (RgbRange.rgb_range ⟨(0, 0, 0), (0, 0, 0), 0, 10⟩).getD
      (RgbRange.band ⟨(0, 0, 0), (0, 0, 0), 0, 10⟩ (5, 0, 0)) 0 = 0 ∧
    (RgbRange.spectral_position ⟨(0, 0, 0), (0, 0, 0), 0, 10⟩ (5, 0, 0)).getD
      (RgbRange.band ⟨(0, 0, 0), (0, 0, 0), 0, 10⟩ (5, 0, 0)) 0 ≠ 0 := by
  have hz : RgbRange.rgb_to_z ⟨(0, 0, 0), (0, 0, 0), 0, 10⟩ (5, 0, 0) =
      .error .zeroDivisionError := by
    have h1 : RgbRange.largest_range ⟨(0, 0, 0), (0, 0, 0), 0, 10⟩ (5, 0, 0) = 5 := by
      decide
    have h2 : RgbRange.band ⟨(0, 0, 0), (0, 0, 0), 0, 10⟩ (5, 0, 0) = 0 := by decide
    rw [RgbRange.rgb_to_z, h1, h2]
    norm_num [RgbRange.rgb_range]
  refine ⟨hz, ?_, by decide, by decide, by decide⟩
  rw [hz]
  decide

/-- Claim C8 (amended): a zero channel span at the selected band makes the
degenerate scenario impossible for a matched triple — `in_range` forces
the spectral position at that band to zero, so evaluation returns `z_min`
without dividing — while a triple with non-zero spectral position at that
band is never matched and direct evaluation on it raises
`ZeroDivisionError` (the program defines no `RangeError`). -/
theorem rgb_to_z_zero_span (r : RgbRange) (p : Rgb)
    (hspan : r.rgb_range.getD (r.band p) 0 = 0) :
    (r.in_range p = true → r.rgb_to_z p = .ok r.z_min) ∧
    ((r.spectral_position p).getD (r.band p) 0 ≠ 0 →
      r.in_range p = false ∧ r.rgb_to_z p = .error .zeroDivisionError) := by
  constructor
  · intro hin
    have h0 := matched_span_zero r p hin hspan
    rw [RgbRange.rgb_to_z, if_neg (by simpa using h0)]
  · rw [spectral_at_band]
    intro hl
    have hnotin : r.in_range p = false := by
      by_contra hc
      have htrue : r.in_range p = true := by
        revert hc
        cases r.in_range p <;> simp
      exact hl (matched_span_zero r p htrue hspan)
    refine ⟨hnotin, ?_⟩
    rw [RgbRange.rgb_to_z, if_pos hl, if_pos hspan]

theorem rgb_to_z_zero_span_witness :
    RgbRange.in_range ⟨(0, 0, 0), (0, 0, 0), 0, 10⟩ (5, 0, 0) = false ∧
    RgbRange.rgb_to_z ⟨(0, 0, 0), (0, 0, 0), 0, 10⟩ (5, 0, 0) =
      .error .zeroDivisionError :=
  (rgb_to_z_zero_span ⟨(0, 0, 0), (0, 0, 0), 0, 10⟩ (5, 0, 0) (by decide)).2
    (by decide)

/-- Claim C10: for a range whose z values satisfy `z_min ≤ z_max` and any
triple accepted by `in_range`, `rgb_to_z` succeeds and its value lies in
`[z_min, z_max]`. -/
theorem rgb_to_z_within_bounds (r : RgbRange) (p : Rgb)
    (hz : r.z_min ≤ r.z_max) (hin : r.in_range p = true) :
    ∃ z, r.rgb_to_z p = .ok z ∧ r.z_min ≤ z ∧ z ≤ r.z_max := by
  rw [RgbRange.rgb_to_z]
  by_cases hl : r.largest_range p = 0
  · rw [if_neg (by simpa using hl)]
    exact ⟨r.z_min, rfl, le_refl _, hz⟩
  · have hspan : ¬(r.rgb_range.getD (r.band p) 0 = 0) :=
      fun h => hl (matched_span_zero r p hin h)
    rw [if_pos hl, if_neg hspan]
    refine ⟨_, rfl, ?_, ?_⟩
    · apply le_pyRound
      have hLq : (0 : ℚ) ≤ (r.largest_range p : ℚ) := by
        exact_mod_cast largest_nonneg r p
      have hzr : (0 : ℚ) ≤ (r.z_range : ℚ) := by
        exact_mod_cast abs_nonneg (r.z_max - r.z_min)
      have hdq : (0 : ℚ) ≤ (r.rgb_range.getD (r.band p) 0 : ℚ) := by
        have hd := matched_le_span r p hin (r.band p) (band_lt_three r p)
        rw [spectral_at_band] at hd
        have := largest_nonneg r p
        exact_mod_cast (by omega : (0 : Int) ≤ r.rgb_range.getD (r.band p) 0)
      have : (0 : ℚ) ≤ (r.largest_range p : ℚ) *
          ((r.z_range : ℚ) / (r.rgb_range.getD (r.band p) 0 : ℚ)) :=
        mul_nonneg hLq (div_nonneg hzr hdq)
      linarith
    · apply pyRound_le
      have hL0 : (0 : Int) < r.largest_range p :=
        lt_of_le_of_ne (largest_nonneg r p) (Ne.symm hl)
      have hdL : r.largest_range p ≤ r.rgb_range.getD (r.band p) 0 := by
        have hd := matched_le_span r p hin (r.band p) (band_lt_three r p)
        rwa [spectral_at_band] at hd
      have hd0 : (0 : Int) < r.rgb_range.getD (r.band p) 0 := lt_of_lt_of_le hL0 hdL
      have hfrac : (r.largest_range p : ℚ) / (r.rgb_range.getD (r.band p) 0 : ℚ) ≤ 1 :=
        (div_le_one (by exact_mod_cast hd0)).mpr (by exact_mod_cast hdL)
      have hzr : r.z_range = r.z_max - r.z_min := abs_of_nonneg (by omega)
      have hzrq : (0 : ℚ) ≤ (r.z_range : ℚ) := by
        exact_mod_cast abs_nonneg (r.z_max - r.z_min)
      have heq : (r.largest_range p : ℚ) *
          ((r.z_range : ℚ) / (r.rgb_range.getD (r.band p) 0 : ℚ)) =
          (r.z_range : ℚ) *
          ((r.largest_range p : ℚ) / (r.rgb_range.getD (r.band p) 0 : ℚ)) := by
        ring
      have hle : (r.largest_range p : ℚ) *
          ((r.z_range : ℚ) / (r.rgb_range.getD (r.band p) 0 : ℚ)) ≤ (r.z_range : ℚ) := by
        rw [heq]
        calc (r.z_range : ℚ) *
            ((r.largest_range p : ℚ) / (r.rgb_range.getD (r.band p) 0 : ℚ)) ≤
            (r.z_range : ℚ) * 1 := by
              exact mul_le_mul_of_nonneg_left hfrac hzrq
          _ = (r.z_range : ℚ) := mul_one _
      have hzq : (r.z_range : ℚ) = (r.z_max : ℚ) - (r.z_min : ℚ) := by
        rw [hzr]
        push_cast
        ring
      linarith

theorem rgb_to_z_within_bounds_witness :
    ∃ z, RgbRange.rgb_to_z ⟨(0, 0, 0), (255, 255, 255), 0, 100⟩ (10, 0, 0) = .ok z ∧
      (0 : Int) ≤ z ∧ z ≤ 100 :=
  rgb_to_z_within_bounds ⟨(0, 0, 0), (255, 255, 255), 0, 100⟩ (10, 0, 0)
    (by decide) (by decide)

/-! ## Lemmas about parsing errors -/

theorem pyIndex_ok {α : Type} (l : List α) (i : Nat) (d : α) (h : i < l.length) :
    pyIndex l i = .ok (l.getD i d) := by
  simp only [pyIndex, List.get?_eq_getElem?, List.getElem?_eq_getElem h,
    List.getD_eq_getElem l d h]

theorem pyIndex_err {α : Type} (l : List α) (i : Nat) (e : PyErr)
    (h : pyIndex l i = .error e) : e = .indexError := by
  unfold pyIndex at h
  split at h <;> simp_all

theorem pyInt_err (s : String) (e : PyErr) (h : pyInt s = .error e) :
    e = .valueError := by
  unfold pyInt at h
  split at h <;> split_ifs at h <;> simp_all

theorem mapPyInt_err : ∀ (l : List String) (e : PyErr),
    mapPyInt l = .error e → e = .valueError
  | [], e, h => by simp [mapPyInt] at h
  | x :: xs, e, h => by
      rw [mapPyInt] at h
      cases hx : pyInt x with
      | error e2 =>
          rw [hx] at h
          cases h
          exact pyInt_err x _ hx
      | ok v =>
          rw [hx] at h
          cases hys : mapPyInt xs with
          | error e2 =>
              rw [hys] at h
              cases h
              exact mapPyInt_err xs _ hys
          | ok ys =>
              rw [hys] at h
              simp at h

theorem convertLines_err : ∀ (l : List (List String)) (e : PyErr),
    convertLines l = .error e → e = .valueError
  | [], e, h => by simp [convertLines] at h
  | x :: xs, e, h => by
      rw [convertLines] at h
      cases hx : mapPyInt x with
      | error e2 =>
          rw [hx] at h
          cases h
          exact mapPyInt_err x _ hx
      | ok v =>
          rw [hx] at h
          cases hys : convertLines xs with
          | error e2 =>
              rw [hys] at h
              cases h
              exact convertLines_err xs _ hys
          | ok ys =>
              rw [hys] at h
              simp at h

theorem buildRanges_err : ∀ (content : List (List Int)) (e : PyErr),
    buildRanges content = .error e → e = .indexError
  | [], e, h => by simp [buildRanges] at h
  | [a], e, h => by simp [buildRanges] at h
  | a :: b :: rest, e, h => by
      rw [buildRanges] at h
      cases h1 : pyIndex a 3 with
      | error e1 =>
          rw [h1] at h
          cases h
          exact pyIndex_err a 3 _ h1
      | ok z1 =>
          rw [h1] at h
          cases h2 : pyIndex b 3 with
          | error e2 =>
              rw [h2] at h
              cases h
              exact pyIndex_err b 3 _ h2
          | ok z2 =>
              rw [h2] at h
              cases h3 : buildRanges (b :: rest) with
              | error e3 =>
                  rw [h3] at h
                  cases h
                  exact buildRanges_err (b :: rest) _ h3
              | ok os =>
                  rw [h3] at h
                  simp at h

/-! ## Claims about ramp construction and parsing -/

/-- Counterexample to claim C3 as stated: `create_rgb_range` accepts a
breakpoint list with a channel value outside `[0, 255]` (here 300) and an
inverted z pair (5 above 0) without failing, and a single-breakpoint file
yields an empty list instead of an error. -/
theorem create_rgb_range_counterexample :
    create_rgb_range ["300 0 0 5", "0 0 0 0"] =
      .ok [⟨(300, 0, 0), (0, 0, 0), 5, 0⟩] ∧
    create_rgb_range ["1 2 3 4"] = .ok [] := by
  exact ⟨by decide, by decide⟩

/-- Claim C3 (amended): range construction performs no validation and
never raises any error on all-integer lines of at least four fields — in
particular it succeeds (rather than failing with a `RangeError`, which
the program does not define) on out-of-bounds channel values and inverted
z pairs, pairing consecutive lines into ranges; fewer than 2 lines yield
the empty list.  The converse direction of the claim holds: at least 2
valid entries sorted by increasing z construct successfully. -/
theorem buildRanges_total (bps : List (List Int))
    (h4 : ∀ l ∈ bps, 4 ≤ l.length) :
    buildRanges bps = .ok ((bps.zip bps.tail).map fun ab =>
      ⟨firstThree ab.1, firstThree ab.2, ab.1.getD 3 0, ab.2.getD 3 0⟩) := by
  induction bps with
  | nil => rfl
  | cons a rest ih =>
      cases rest with
      | nil => rfl
      | cons b rest2 =>
          have ha : (3 : Nat) < a.length := by
            have := h4 a (List.mem_cons_self a _)
            omega
          have hb : (3 : Nat) < b.length := by
            have := h4 b (List.mem_cons_of_mem a (List.mem_cons_self b _))
            omega
          have ihh := ih fun l hl => h4 l (List.mem_cons_of_mem a hl)
          rw [buildRanges, pyIndex_ok a 3 0 ha, pyIndex_ok b 3 0 hb, ihh]
          simp [List.zip_cons_cons]

theorem buildRanges_total_witness :
    buildRanges [[0, 0, 0, 0], [255, 255, 255, 100]] =
      .ok [⟨(0, 0, 0), (255, 255, 255), 0, 100⟩] := by
  rw [buildRanges_total [[0, 0, 0, 0], [255, 255, 255, 100]] (by decide)]
  decide

/-- Claim C9: contrary to the claim, malformed ramp lines do not surface
as the script's `FileFormat` error.  A non-numeric field raises
`ValueError`, a line with too few fields raises `IndexError`, lines with
extra fields are silently accepted (the surplus fields are ignored), a
lone short line is silently ignored, and no input at all makes
`create_rgb_range` raise `FileFormat` — even though the script defines
that exception and installs handlers for it. -/
theorem create_rgb_range_malformed_lines :
    create_rgb_range ["1 2 3 4", "0 0 x 9"] = .error .valueError ∧
    create_rgb_range ["1 2 3", "4 5 6 7"] = .error .indexError ∧
    create_rgb_range ["1 2 3 4 99", "5 6 7 8 99"] =
      .ok [⟨(1, 2, 3), (5, 6, 7), 4, 8⟩] ∧
    create_rgb_range ["1 2 3"] = .ok [] ∧
    (∀ fileLines : List String, create_rgb_range fileLines ≠ .error .fileFormat) := by
  refine ⟨by decide, by decide, by decide, by decide, ?_⟩
  intro fileLines hcon
  rw [create_rgb_range] at hcon
  cases hm : convertLines ((fileLines.map splitWs).filter fun l => !l.isEmpty) with
  | error e =>
      rw [hm] at hcon
      cases hcon
      exact absurd (convertLines_err _ _ hm) (by decide)
  | ok content =>
      rw [hm] at hcon
      exact absurd (buildRanges_err content _ hcon) (by decide)

/-! ## Claims about the histogram-equalisation inversion state -/

set_option maxRecDepth 10000

/-- Claim C4: contrary to the claim, only the red channel's cumulative sum
is built from its own histogram counts.  As lines 213-215 are written,
`green_cum_sum` is `np.cumsum(red_histogram[1])` — the cumulative sum of
the red histogram's *bin-edge array* `bins`, independent of the green
channel — and `blue_cum_sum` is `np.cumsum(red_histogram[2])`, which
indexes the two-element histogram tuple out of range and raises
`IndexError`.  With red channel `[0]` and green channel `[1]`, the code's
green cumulative sum has entry 3 at index 2 while the specification's
(green-histogram-based) cumulative sum has entry 1 there. -/
theorem cum_sums_built_from_red_histogram :
    green_cum_sum [0] = .ok (np_cumsum bins) ∧
    (np_cumsum bins).getD 2 0 = 3 ∧
    (level_cum_sum [1]).getD 2 0 = 1 ∧
    blue_cum_sum [0] = .error .indexError := by
  exact ⟨rfl, by decide, by decide, rfl⟩

/-- Claim C5: contrary to the claim, `np.histogram` with the 256 edges
`np.arange(0, 256)` yields 255 bins, not 256 — and because the last bin
is closed, a pixel of intensity 255 is counted in bin 254.  On the
channel array `[255]`: the code's counts have length 255 and count 1 at
index 254, although no pixel equals 254; the specification's 256-bin
counts put that pixel at index 255. -/
theorem histogram_bins_off_by_one :
    ((red_histogram [255]).getD 0 []).length = 255 ∧
    ((red_histogram [255]).getD 0 []).getD 254 0 = 1 ∧
    ([(255 : Int)].countP fun x => decide (x = (254 : Int))) = 0 ∧
    (level_counts [255]).length = 256 ∧
    (level_counts [255]).getD 254 0 = 0 ∧
    (level_counts [255]).getD 255 0 = 1 := by
  exact ⟨by decide, by decide, by decide, by decide, by decide, by decide⟩
